import Mathlib

/-!
Shallow embedding of the netloader protocol client of this repository
(`src/tools/netloader/src`): the file-upload client (`loader/send.rs`),
the UDP discovery client (`loader/discovery.rs`) and the stdio redirect
server (`stdio.rs`).  Bytes are modelled as `Nat`, byte buffers as
`List Nat`, wire integers with explicit `% 2^32` arithmetic, fallible
operations as `Except`, and socket traffic as explicit traces.
-/

namespace Netloader

/-- `MAX_FILE_CHUNK_SIZE` of `loader/send.rs`: maximum size of the buffer
the data-streaming loop reads from the zlib encoder (0x4000 bytes). -/
def MAX_FILE_CHUNK_SIZE : Nat := 0x4000

/-- `MAX_CMD_BUF_SIZE` of `loader/send.rs`: capacity of the command-line
argument buffer (3072 bytes). -/
def MAX_CMD_BUF_SIZE : Nat := 3072

/-- `PING_MESSAGE` of `loader/discovery.rs`: the ASCII bytes of the
discovery probe literal. -/
def PING_MESSAGE : List Nat := [110, 120, 98, 111, 111, 116]

/-- `PONG_MESSAGE` of `loader/discovery.rs`: the ASCII bytes of the
discovery reply literal. -/
def PONG_MESSAGE : List Nat := [98, 111, 111, 116, 110, 120]

/-- `SendNroError` of `loader/send.rs`: peer-reported upload failures. -/
inductive SendNroError
  | couldNotCreateFile
  | insufficientSpace
  | fileExtensionNotRecognized
  | unknownError (code : Int)
deriving DecidableEq, Repr

/-- `impl From<i32> for SendNroError` of `loader/send.rs`. -/
def SendNroError.fromCode (value : Int) : SendNroError :=
  if value = -1 then .couldNotCreateFile
  else if value = -2 then .insufficientSpace
  else if value = -3 then .fileExtensionNotRecognized
  else .unknownError value

/-- The acknowledgement check of `send_file_name_and_length` in
`loader/send.rs`: `match rc { 0 => Ok(()), _ => Err(SendNroError::from(rc)) }`. -/
def checkAck (rc : Int) : Except SendNroError Unit :=
  if rc = 0 then .ok () else .error (SendNroError.fromCode rc)

/-- Little-endian byte encoding of a `u32` value, as produced by
`write_u32_le`; the argument is reduced `% 2^32` first, matching the
`as u32` truncating cast applied before the write. -/
def u32leBytes (n : Nat) : List Nat :=
  [n % 2 ^ 32 % 256, n % 2 ^ 32 / 2 ^ 8 % 256, n % 2 ^ 32 / 2 ^ 16 % 256,
    n % 2 ^ 32 / 2 ^ 24 % 256]

/-- Decode a 4-byte little-endian buffer back to its numeric value. -/
def decodeU32le : List Nat → Nat
  | [b0, b1, b2, b3] => b0 + 2 ^ 8 * b1 + 2 ^ 16 * b2 + 2 ^ 24 * b3
  | _ => 0

/-- `stream.write_u32_le(file_length as u32)` of
`send_file_name_and_length` in `loader/send.rs`: the 4-byte file-length
field of the upload handshake. -/
def fileLengthField (file_length : Nat) : List Nat := u32leBytes file_length

/-- `write_length_prefixed` of `loader/send.rs`: the data's length as a
little-endian `u32` followed by the data bytes. -/
def writeLengthPrefixed (data : List Nat) : List Nat :=
  u32leBytes data.length ++ data

/-- The bytes written by `send_file_name_and_length` in `loader/send.rs`:
length-prefixed file name, then the 4-byte file-length field. -/
def sendFileNameAndLengthBytes (file_name : List Nat) (file_length : Nat) :
    List Nat :=
  writeLengthPrefixed file_name ++ fileLengthField file_length

/-- The buffer-filling loop of `send_nro_args` in `loader/send.rs`:
starting from the bytes already written (`buf`), for each argument check
whether the argument plus its null terminator still fits in
`MAX_CMD_BUF_SIZE`; if not, `break` out of the loop, otherwise append
the argument bytes followed by a single `0` byte and continue. -/
def writeCmdArgs : List (List Nat) → List Nat → List Nat
  | [], buf => buf
  | arg :: rest, buf =>
    if buf.length + arg.length + 1 > MAX_CMD_BUF_SIZE then buf
    else writeCmdArgs rest (buf ++ arg ++ [0])

/-- `send_nro_args` of `loader/send.rs`: the argument blob sent as the
trailing frame, built from an empty cursor. -/
def buildCmdBuf (args : List (List Nat)) : List Nat := writeCmdArgs args []

/-- The read loop of `compress_and_send_nro_file_data` in
`loader/send.rs`: each iteration calls `encoder.read` with a
`MAX_FILE_CHUNK_SIZE`-byte buffer, stops on a zero-length read, and
otherwise emits `buf[..read_len]` as one length-prefixed frame.  The
`flate2::bufread::ZlibEncoder` yields the *compressed* byte stream when
read, so the loop is modelled over that stream (`encoderOutput`), each
read returning `min remaining MAX_FILE_CHUNK_SIZE` bytes of it. -/
def readEncoderFrames (encoderOutput : List Nat) : List (List Nat) :=
  if encoderOutput = [] then []
  else
    encoderOutput.take MAX_FILE_CHUNK_SIZE
      :: readEncoderFrames (encoderOutput.drop MAX_FILE_CHUNK_SIZE)
termination_by encoderOutput.length
decreasing_by
  rename_i h
  simp only [List.length_drop]
  have : 0 < encoderOutput.length := List.length_pos.mpr h
  simp only [MAX_FILE_CHUNK_SIZE]
  omega

/-- The payloads of the data frames `compress_and_send_nro_file_data`
sends for a given uncompressed `input`, with the zlib compressor
abstracted as the function `compress` from the uncompressed stream to the
full compressed stream. -/
def dataFrames (compress : List Nat → List Nat) (input : List Nat) :
    List (List Nat) :=
  readEncoderFrames (compress input)

/-- Modelled from the spec: the data frames as §4.2 step 3 and C3
describe them — the 16 KiB chunk boundary applied to the *uncompressed*
source, each frame carrying the compressor output for one such 16 KiB
input read. -/
def specInputChunkedFrames (compress : List Nat → List Nat)
    (input : List Nat) : List (List Nat) :=
  (readEncoderFrames input).map compress

/-- `recv_pong_response` of `loader/discovery.rs`: the received datagram
lands in a zero-initialised 16-byte buffer (`[0u8; 0x10]`, excess bytes
of a longer datagram are truncated, so the received length is
`min datagram.length 16`), and the reply is valid when that length is at
least `PING_MESSAGE.len()` and the first `PONG_MESSAGE.len()` buffer
bytes equal `PONG_MESSAGE`. -/
def recvPongValid (datagram : List Nat) : Bool :=
  decide (PING_MESSAGE.length ≤ min datagram.length 16)
    && decide ((datagram.take 16
        ++ List.replicate (16 - min datagram.length 16) 0).take
          PONG_MESSAGE.length = PONG_MESSAGE)

/-- The outcome of one discovery attempt in `discover` of
`loader/discovery.rs`: the sent ping is answered with a valid pong
(carrying the sender's address), the attempt future finishes with an
error (a send failure, or a receive failure including an invalid reply),
or the per-attempt timeout elapses first. -/
inductive AttemptOutcome
  | success (ip : Nat)
  | failure (e : Nat)
  | timeout
deriving DecidableEq, Repr

/-- The `for attempt in 0..retries` loop of `discover` in
`loader/discovery.rs`, with `out` giving each attempt's outcome.  A
success returns the address at once; an attempt error is returned only
when `attempt + 1 == retries`, otherwise the loop continues; a timeout
always continues; a completed loop returns `none` ("not found"). -/
def discoverLoop (out : Nat → AttemptOutcome) (retries attempt : Nat) :
    Except Nat (Option Nat) :=
  if attempt < retries then
    match out attempt with
    | .success ip => .ok (some ip)
    | .failure e =>
      if attempt + 1 = retries then .error e
      else discoverLoop out retries (attempt + 1)
    | .timeout => discoverLoop out retries (attempt + 1)
  else .ok none
termination_by retries - attempt
decreasing_by
  all_goals omega

/-- Instrumentation of the same loop: the attempts on which it performs
network traffic (each loop iteration sends a ping and waits). -/
def discoverTrace (out : Nat → AttemptOutcome) (retries attempt : Nat) :
    List Nat :=
  if attempt < retries then
    match out attempt with
    | .success _ => [attempt]
    | .failure _ =>
      if attempt + 1 = retries then [attempt]
      else attempt :: discoverTrace out retries (attempt + 1)
    | .timeout => attempt :: discoverTrace out retries (attempt + 1)
  else []
termination_by retries - attempt
decreasing_by
  all_goals omega

/-- `discover` of `loader/discovery.rs` after its two socket binds
succeed: run the attempt loop from attempt 0. -/
def discover (out : Nat → AttemptOutcome) (retries : Nat) :
    Except Nat (Option Nat) :=
  discoverLoop out retries 0

/-- One client-to-server message of the upload protocol of
`loader/send.rs`. -/
inductive UploadMsg
  | nameAndLength (name : List Nat) (len : Nat)
  | dataFrame (payload : List Nat)
  | argsBlob (blob : List Nat)
deriving DecidableEq, Repr

/-- The failure modes of `send_nro_file`: a classified handshake
acknowledgement error, or the generic "Unknown error" of a non-zero
data-phase acknowledgement. -/
inductive SendFileError
  | handshake (e : SendNroError)
  | dataAck
deriving DecidableEq, Repr

/-- `send_nro_file` of `loader/send.rs`: handshake
(`send_file_name_and_length`, answered by `ack1`), then the compressed
data frames (`compress_and_send_nro_file_data`, answered by `ack2`), then
the argument blob (`send_nro_args`).  The result is paired with the trace
of messages put on the wire; each phase runs only if the previous one
succeeded (`?` propagation). -/
def sendNroFile (file_name : List Nat) (file_length : Nat)
    (compress : List Nat → List Nat) (input : List Nat)
    (cmd_args : List (List Nat)) (ack1 ack2 : Int) :
    Except SendFileError Unit × List UploadMsg :=
  match checkAck ack1 with
  | .error e =>
    (.error (.handshake e),
      [.nameAndLength file_name (file_length % 2 ^ 32)])
  | .ok _ =>
    if ack2 = 0 then
      (.ok (),
        .nameAndLength file_name (file_length % 2 ^ 32)
          :: (dataFrames compress input).map UploadMsg.dataFrame
          ++ [.argsBlob (buildCmdBuf cmd_args)])
    else
      (.error .dataAck,
        .nameAndLength file_name (file_length % 2 ^ 32)
          :: (dataFrames compress input).map UploadMsg.dataFrame)

/-- One event observed by `handle_stream` of `stdio.rs` on the accepted
connection: a successful read of a (non-empty, at most 1024-byte) chunk
together with the outcome of writing it to stdout (`none` = written,
`some e` = the write failed with `e`), an orderly close (a read returning
zero bytes), or a failing read. -/
inductive StreamEvent
  | data (chunk : List Nat) (writeErr : Option Nat)
  | closed
  | readErr (e : Nat)
deriving DecidableEq, Repr

/-- `handle_stream` of `stdio.rs` over the connection's event sequence:
loop reading into the 1 KiB buffer; a zero-byte read (`closed`) returns
success, a read error returns that error, otherwise the bytes read are
written to stdout (a failing write returns its error).  The result is
paired with the bytes written to stdout.  (A well-formed event list ends
in `closed` or `readErr`; an exhausted list is mapped to success.) -/
def handleStream : List StreamEvent → Except Nat Unit × List Nat
  | [] => (.ok (), [])
  | .closed :: _ => (.ok (), [])
  | .readErr e :: _ => (.error e, [])
  | .data c none :: rest =>
    ((handleStream rest).1, c ++ (handleStream rest).2)
  | .data _ (some e) :: _ => (.error e, [])

/-- C1: for every acknowledgement code read after the upload handshake,
code 0 yields success; -1 fails with `couldNotCreateFile` (CreateFileFailed);
-2 with `insufficientSpace`; -3 with `fileExtensionNotRecognized`
(UnrecognizedExtension); and any other non-zero code `c` fails with
`unknownError c` carrying the numeric value. -/
theorem checkAck_mapping :
    checkAck 0 = .ok ()
      ∧ checkAck (-1) = .error .couldNotCreateFile
      ∧ checkAck (-2) = .error .insufficientSpace
      ∧ checkAck (-3) = .error .fileExtensionNotRecognized
      ∧ ∀ c : Int, c ≠ 0 → c ≠ -1 → c ≠ -2 → c ≠ -3 →
          checkAck c = .error (.unknownError c) := by
  refine ⟨rfl, rfl, rfl, rfl, ?_⟩
  intro c h0 h1 h2 h3
  simp [checkAck, SendNroError.fromCode, h0, h1, h2, h3]

/-- Witness for C1: the catch-all branch at the concrete code 5. -/
theorem checkAck_mapping_witness :
    checkAck 5 = .error (.unknownError 5) :=
  checkAck_mapping.2.2.2.2 5 (by decide) (by decide) (by decide) (by decide)

/-- C10: the 4-byte little-endian file-length field written during the
upload handshake decodes to `file_length % 2^32`; for `file_length ≥ 2^32`
the declared length silently wraps (the field equals the field of
`file_length % 2^32`) rather than failing or saturating. -/
theorem fileLengthField_wraps (file_length : Nat) :
    decodeU32le (fileLengthField file_length) = file_length % 2 ^ 32
      ∧ fileLengthField file_length = fileLengthField (file_length % 2 ^ 32) := by
  constructor
  · simp only [fileLengthField, u32leBytes, decodeU32le]
    omega
  · simp only [fileLengthField, u32leBytes, List.cons.injEq, and_true]
    omega

/-- The accumulator-generalised characterisation of `writeCmdArgs`: the
loop appends the null-terminated concatenation of the longest prefix of
the arguments that fits, never exceeds the cap, and stops at the first
argument that would overflow it. -/
theorem writeCmdArgs_spec (args : List (List Nat)) (buf : List Nat)
    (hbuf : buf.length ≤ MAX_CMD_BUF_SIZE) :
    ∃ k ≤ args.length,
      writeCmdArgs args buf
          = buf ++ (List.map (fun a => a ++ [0]) (args.take k)).flatten
        ∧ (writeCmdArgs args buf).length ≤ MAX_CMD_BUF_SIZE
        ∧ ∀ h : k < args.length,
            (writeCmdArgs args buf).length + (args.get ⟨k, h⟩).length + 1
              > MAX_CMD_BUF_SIZE := by
  induction args generalizing buf with
  | nil =>
    refine ⟨0, Nat.le_refl 0, by simp [writeCmdArgs], by simpa [writeCmdArgs], ?_⟩
    intro h; exact absurd h (by simp)
  | cons a rest ih =>
    by_cases hfit : buf.length + a.length + 1 > MAX_CMD_BUF_SIZE
    · refine ⟨0, Nat.zero_le _, ?_, ?_, ?_⟩
      · simp [writeCmdArgs, hfit]
      · simpa [writeCmdArgs, hfit]
      · intro _
        simp [writeCmdArgs, hfit]
    · have hlen : (buf ++ a ++ [0]).length ≤ MAX_CMD_BUF_SIZE := by
        simp only [List.length_append, List.length_singleton]
        omega
      obtain ⟨k, hk, heq, hle, hstop⟩ := ih (buf ++ a ++ [0]) hlen
      refine ⟨k + 1, by simpa using Nat.succ_le_succ hk, ?_, ?_, ?_⟩
      · simp only [writeCmdArgs, if_neg hfit, List.take_succ_cons, List.map_cons,
          List.flatten_cons]
        rw [heq]; simp
      · simpa [writeCmdArgs, if_neg hfit] using hle
      · intro h
        have h' : k < rest.length := by simpa using Nat.lt_of_succ_lt_succ h
        have := hstop h'
        simpa [writeCmdArgs, if_neg hfit] using this

/-- C2: for any list of argument strings, the argument blob is the
null-terminated concatenation of some prefix of the arguments (so every
argument appearing in it appears in full with its terminator and none is
partial), its total size never exceeds 3072 bytes, and construction
stopped exactly because the next argument plus its terminator would push
the total past 3072 (dropping it and all later arguments). -/
theorem buildCmdBuf_spec (args : List (List Nat)) :
    ∃ k ≤ args.length,
      buildCmdBuf args = (List.map (fun a => a ++ [0]) (args.take k)).flatten
        ∧ (buildCmdBuf args).length ≤ MAX_CMD_BUF_SIZE
        ∧ ∀ h : k < args.length,
            (buildCmdBuf args).length + (args.get ⟨k, h⟩).length + 1
              > MAX_CMD_BUF_SIZE := by
  obtain ⟨k, hk, heq, hle, hstop⟩ :=
    writeCmdArgs_spec args [] (by simp [MAX_CMD_BUF_SIZE])
  exact ⟨k, hk, by simpa [buildCmdBuf] using heq, hle, hstop⟩

/-- Concatenating the frames emitted by the read loop restores the whole
stream it consumed. -/
theorem readEncoderFrames_flatten (xs : List Nat) :
    (readEncoderFrames xs).flatten = xs := by
  by_cases h : xs = []
  · subst h; simp [readEncoderFrames]
  · rw [readEncoderFrames, if_neg h, List.flatten_cons,
      readEncoderFrames_flatten (xs.drop MAX_FILE_CHUNK_SIZE),
      List.take_append_drop]
termination_by xs.length
decreasing_by
  simp only [List.length_drop]
  have : 0 < xs.length := List.length_pos.mpr h
  simp only [MAX_FILE_CHUNK_SIZE]
  omega

/-- Every frame emitted by the read loop is non-empty and at most
`MAX_FILE_CHUNK_SIZE` bytes long. -/
theorem readEncoderFrames_mem (xs : List Nat) :
    ∀ f ∈ readEncoderFrames xs, f ≠ [] ∧ f.length ≤ MAX_FILE_CHUNK_SIZE := by
  by_cases h : xs = []
  · subst h; simp [readEncoderFrames]
  · rw [readEncoderFrames, if_neg h]
    intro f hf
    rcases List.mem_cons.mp hf with hf | hf
    · subst hf
      refine ⟨?_, List.length_take_le MAX_FILE_CHUNK_SIZE xs⟩
      have hpos : 0 < xs.length := List.length_pos.mpr h
      have : 0 < (xs.take MAX_FILE_CHUNK_SIZE).length := by
        simp only [List.length_take, MAX_FILE_CHUNK_SIZE]
        omega
      exact List.length_pos.mp this
    · exact readEncoderFrames_mem (xs.drop MAX_FILE_CHUNK_SIZE) f hf
termination_by xs.length
decreasing_by
  simp only [List.length_drop]
  have : 0 < xs.length := List.length_pos.mpr h
  simp only [MAX_FILE_CHUNK_SIZE]
  omega

/-- C3 (counterexample): the claim that the 16 KiB chunk boundary applies
to the uncompressed source reads fails on the code.  With a compressor
that shrinks 16385 zero bytes to a single byte, the loop emits one frame
(one read of the compressed stream), while the claimed per-16KiB-of-input
chunking would emit two frames. -/
theorem dataFrames_not_input_chunked :
    dataFrames (fun _ => [0]) (List.replicate 16385 0)
      ≠ specInputChunkedFrames (fun _ => [0]) (List.replicate 16385 0) := by
  intro hcontra
  have e0 : readEncoderFrames ([] : List Nat) = [] := by
    rw [readEncoderFrames]
    simp
  have htake : List.take MAX_FILE_CHUNK_SIZE [(0 : Nat)] = [0] :=
    List.take_of_length_le (by simp [MAX_FILE_CHUNK_SIZE])
  have hdrop : List.drop MAX_FILE_CHUNK_SIZE [(0 : Nat)] = [] :=
    List.drop_eq_nil_of_le (by simp [MAX_FILE_CHUNK_SIZE])
  have h1 : dataFrames (fun _ => [0]) (List.replicate 16385 0) = [[0]] := by
    rw [dataFrames]
    rw [readEncoderFrames, if_neg (by simp), htake, hdrop, e0]
  have e2 : readEncoderFrames [(0 : Nat)] = [[0]] := by
    rw [readEncoderFrames, if_neg (by simp), htake, hdrop, e0]
  have hne : ¬ (List.replicate 16385 (0 : Nat) = []) := by
    intro h
    have hlen := congrArg List.length h
    rw [List.length_replicate, List.length_nil] at hlen
    exact absurd hlen (by norm_num)
  have htake2 : List.take MAX_FILE_CHUNK_SIZE (List.replicate 16385 (0 : Nat))
      = List.replicate 16384 0 := by
    rw [MAX_FILE_CHUNK_SIZE, List.take_replicate]
    congr 1
  have hdrop2 : List.drop MAX_FILE_CHUNK_SIZE (List.replicate 16385 (0 : Nat))
      = [0] := by
    rw [MAX_FILE_CHUNK_SIZE, List.drop_replicate,
      show (16385 - 16384 : Nat) = 1 from rfl, List.replicate_one]
  have h2 : (readEncoderFrames (List.replicate 16385 (0 : Nat))).length = 2 := by
    rw [readEncoderFrames, if_neg hne, htake2, hdrop2, e2]
    rfl
  have h3 : (specInputChunkedFrames (fun _ => [0])
      (List.replicate 16385 0)).length = 2 := by
    rw [specInputChunkedFrames, List.length_map]
    exact h2
  rw [hcontra] at h1
  rw [h1] at h3
  exact absurd h3 (by norm_num)

/-- C3 (amended): during the data-streaming phase each iteration reads up
to 16 KiB (0x4000 bytes) of *compressed* bytes from the zlib encoder and
emits them as one frame: every frame payload is non-empty and at most
0x4000 bytes, and the concatenated payloads are exactly the compressed
stream of the whole input — the 0x4000 boundary applies to the encoder's
compressed output, not to the uncompressed source reads. -/
theorem dataFrames_chunked_output (compress : List Nat → List Nat)
    (input : List Nat) :
    (∀ f ∈ dataFrames compress input,
        f ≠ [] ∧ f.length ≤ MAX_FILE_CHUNK_SIZE)
      ∧ (dataFrames compress input).flatten = compress input := by
  exact ⟨readEncoderFrames_mem _, readEncoderFrames_flatten _⟩

/-- Witness for the amended C3 at a concrete compressor and input: the
single frame `[7]` of a one-byte compressed stream is non-empty, within
the bound, and flattens back to the stream. -/
theorem dataFrames_chunked_output_witness :
    ([7] ≠ ([] : List Nat) ∧ List.length [7] ≤ MAX_FILE_CHUNK_SIZE)
      ∧ (dataFrames (fun _ => [7]) [1, 2, 3]).flatten = [7] :=
  ⟨(dataFrames_chunked_output (fun _ => [7]) [1, 2, 3]).1 [7]
      (by
        rw [dataFrames]
        rw [readEncoderFrames, if_neg (by simp),
          List.take_of_length_le (by simp [MAX_FILE_CHUNK_SIZE])]
        exact List.mem_cons_self _ _),
    (dataFrames_chunked_output (fun _ => [7]) [1, 2, 3]).2⟩

/-- C4: decompressing the concatenation of the payloads of all data
frames sent for an input reproduces that input, for any compressor and
decompressor forming a round-trip pair (as zlib's deflate/inflate do). -/
theorem dataFrames_roundtrip (compress decompress : List Nat → List Nat)
    (input : List Nat) (h : decompress (compress input) = input) :
    decompress (dataFrames compress input).flatten = input := by
  rw [dataFrames, readEncoderFrames_flatten, h]

/-- Witness for C4 at a concrete round-trip pair and input. -/
theorem dataFrames_roundtrip_witness :
    id (dataFrames id [1, 2, 3]).flatten = [1, 2, 3] :=
  dataFrames_roundtrip id id [1, 2, 3] rfl

/-- C5: a received discovery datagram is accepted exactly when its length
is at least the 6-byte probe length and its first 6 bytes equal the reply
literal "bootnx"; any other datagram is rejected as invalid. -/
theorem recvPongValid_iff (datagram : List Nat) :
    recvPongValid datagram = true
      ↔ 6 ≤ datagram.length ∧ datagram.take 6 = PONG_MESSAGE := by
  have hp : PING_MESSAGE.length = 6 := rfl
  have hq : PONG_MESSAGE.length = 6 := rfl
  rw [recvPongValid, hp, hq]
  simp only [Bool.and_eq_true, decide_eq_true_eq]
  constructor
  · rintro ⟨hge, heq⟩
    have hd : 6 ≤ datagram.length := le_trans hge (min_le_left _ _)
    refine ⟨hd, ?_⟩
    have hlen : 6 ≤ (datagram.take 16).length := by
      rw [List.length_take]
      omega
    rw [List.take_append_of_le_length hlen, List.take_take] at heq
    norm_num at heq
    exact heq
  · rintro ⟨hd, heq⟩
    refine ⟨le_min hd (by norm_num), ?_⟩
    have hlen : 6 ≤ (datagram.take 16).length := by
      rw [List.length_take]
      omega
    rw [List.take_append_of_le_length hlen, List.take_take]
    norm_num
    exact heq

/-- Witness for C5: the exact reply literal is accepted. -/
theorem recvPongValid_iff_witness : recvPongValid PONG_MESSAGE = true :=
  (recvPongValid_iff PONG_MESSAGE).mpr ⟨by norm_num [PONG_MESSAGE], by decide⟩

/-- An error result of the attempt loop always originates from the final
attempt. -/
theorem discoverLoop_error (out : Nat → AttemptOutcome) (retries : Nat) :
    ∀ attempt e, discoverLoop out retries attempt = .error e →
      ∃ i, attempt ≤ i ∧ i + 1 = retries ∧ out i = .failure e := by
  suffices hfuel : ∀ n attempt, retries - attempt ≤ n → ∀ e,
      discoverLoop out retries attempt = .error e →
        ∃ i, attempt ≤ i ∧ i + 1 = retries ∧ out i = .failure e by
    intro attempt
    exact hfuel retries attempt (by omega)
  intro n
  induction n with
  | zero =>
    intro attempt hle e h
    rw [discoverLoop, if_neg (by omega)] at h
    exact absurd h (by simp)
  | succ n ih =>
    intro attempt hle e h
    by_cases hin : attempt < retries
    · rw [discoverLoop, if_pos hin] at h
      split at h
      · exact absurd h (by simp)
      · rename_i e' hout
        split at h
        · rename_i hlast
          have he : e' = e := by
            simpa using h
          exact ⟨attempt, Nat.le_refl _, hlast, by rw [hout, he]⟩
        · obtain ⟨i, hi, hilast, hie⟩ := ih (attempt + 1) (by omega) e h
          exact ⟨i, by omega, hilast, hie⟩
      · rename_i hout
        obtain ⟨i, hi, hilast, hie⟩ := ih (attempt + 1) (by omega) e h
        exact ⟨i, by omega, hilast, hie⟩
    · rw [discoverLoop, if_neg hin] at h
      exact absurd h (by simp)

/-- If no attempt in range succeeds and the final attempt (if any) is a
timeout, the loop completes and returns `none`. -/
theorem discoverLoop_not_found (out : Nat → AttemptOutcome)
    (retries : Nat) :
    ∀ attempt,
      (∀ i, attempt ≤ i → i < retries → ∀ ip, out i ≠ .success ip) →
      (∀ i e, attempt ≤ i → i + 1 = retries → out i ≠ .failure e) →
        discoverLoop out retries attempt = .ok none := by
  suffices hfuel : ∀ n attempt, retries - attempt ≤ n →
      (∀ i, attempt ≤ i → i < retries → ∀ ip, out i ≠ .success ip) →
      (∀ i e, attempt ≤ i → i + 1 = retries → out i ≠ .failure e) →
        discoverLoop out retries attempt = .ok none by
    intro attempt
    exact hfuel retries attempt (by omega)
  intro n
  induction n with
  | zero =>
    intro attempt hle _ _
    rw [discoverLoop, if_neg (by omega)]
  | succ n ih =>
    intro attempt hle hs hf
    by_cases hin : attempt < retries
    · rw [discoverLoop, if_pos hin]
      split
      · rename_i ip hout
        exact absurd hout (hs attempt (Nat.le_refl _) hin ip)
      · rename_i e hout
        split
        · rename_i hlast
          exact absurd hout (hf attempt e (Nat.le_refl _) hlast)
        · exact ih (attempt + 1) (by omega)
            (fun i hi hir ip => hs i (by omega) hir ip)
            (fun i e hi hir => hf i e (by omega) hir)
      · exact ih (attempt + 1) (by omega)
          (fun i hi hir ip => hs i (by omega) hir ip)
          (fun i e hi hir => hf i e (by omega) hir)
    · rw [discoverLoop, if_neg hin]

/-- If no attempt in range succeeds and the final attempt is an error,
the loop surfaces that error. -/
theorem discoverLoop_final_error (out : Nat → AttemptOutcome)
    (retries : Nat) :
    ∀ attempt e,
      (∀ i, attempt ≤ i → i < retries → ∀ ip, out i ≠ .success ip) →
      attempt < retries → out (retries - 1) = .failure e →
        discoverLoop out retries attempt = .error e := by
  suffices hfuel : ∀ n attempt, retries - attempt ≤ n → ∀ e,
      (∀ i, attempt ≤ i → i < retries → ∀ ip, out i ≠ .success ip) →
      attempt < retries → out (retries - 1) = .failure e →
        discoverLoop out retries attempt = .error e by
    intro attempt e
    exact hfuel retries attempt (by omega) e
  intro n
  induction n with
  | zero =>
    intro attempt hle e _ hlt _
    omega
  | succ n ih =>
    intro attempt hle e hs hlt hfin
    rw [discoverLoop, if_pos hlt]
    split
    · rename_i ip hout
      exact absurd hout (hs attempt (Nat.le_refl _) hlt ip)
    · rename_i e' hout
      split
      · rename_i hlast
        have ha : attempt = retries - 1 := by omega
        rw [ha, hfin] at hout
        simp only [AttemptOutcome.failure.injEq] at hout
        rw [hout]
      · rename_i hlast
        exact ih (attempt + 1) (by omega) e
          (fun i hi hir ip => hs i (by omega) hir ip) (by omega) hfin
    · rename_i hout
      have hlast : attempt + 1 ≠ retries := by
        intro hcontra
        have ha : attempt = retries - 1 := by omega
        rw [ha, hfin] at hout
        exact absurd hout (by simp)
      exact ih (attempt + 1) (by omega) e
        (fun i hi hir ip => hs i (by omega) hir ip) (by omega) hfin

/-- C6: `discover` (after its socket binds succeed) fails only with an
error from the final attempt: whenever it returns an error there is a
final attempt that failed with it; and when no attempt obtains a valid
reply, the result is "not found" if the final attempt timed out, but the
final attempt's send/receive error if it had one. -/
theorem discover_contract (out : Nat → AttemptOutcome) (retries : Nat) :
    (∀ e, discover out retries = .error e →
        ∃ i, i + 1 = retries ∧ out i = .failure e)
      ∧ ((∀ i, i < retries → ∀ ip, out i ≠ .success ip) →
          ((∀ i e, i + 1 = retries → out i ≠ .failure e) →
              discover out retries = .ok none)
            ∧ ∀ e, 0 < retries → out (retries - 1) = .failure e →
                discover out retries = .error e) := by
  refine ⟨?_, fun hs => ⟨?_, ?_⟩⟩
  · intro e h
    obtain ⟨i, _, hilast, hie⟩ := discoverLoop_error out retries 0 e h
    exact ⟨i, hilast, hie⟩
  · intro hf
    exact discoverLoop_not_found out retries 0
      (fun i _ hir ip => hs i hir ip) (fun i e _ hir => hf i e hir)
  · intro e hpos hfin
    exact discoverLoop_final_error out retries 0 e
      (fun i _ hir ip => hs i hir ip) hpos hfin

/-- Witness for C6: with two attempts that both time out, the result is
"not found", and with the final attempt failing with error 7, the error
is surfaced. -/
theorem discover_contract_witness :
    discover (fun _ => .timeout) 2 = .ok none
      ∧ discover (fun i => if i = 1 then .failure 7 else .timeout) 2
          = .error 7 :=
  ⟨((discover_contract (fun _ => .timeout) 2).2
        (fun i _ ip => by simp)).1
      (fun i e _ => by simp),
    ((discover_contract (fun i => if i = 1 then .failure 7 else .timeout) 2).2
        (fun i hi ip => by
          by_cases h1 : i = 1 <;> simp [h1])).2 7 (by decide) (by simp)⟩

/-- C7: `discover` with zero attempts returns "not found" immediately,
and the attempt loop performs no network I/O at all. -/
theorem discover_zero_attempts (out : Nat → AttemptOutcome) :
    discover out 0 = .ok none ∧ discoverTrace out 0 0 = [] := by
  constructor
  · rw [discover, discoverLoop, if_neg (by omega)]
  · rw [discoverTrace, if_neg (by omega)]

/-- C8: when the peer answers the upload handshake with acknowledgement
code -2, `send_nro_file` fails with InsufficientSpace and no data frame
is ever transmitted (the streaming and argument phases are not entered:
the wire trace holds the handshake message alone). -/
theorem sendNroFile_insufficientSpace (file_name : List Nat)
    (file_length : Nat) (compress : List Nat → List Nat) (input : List Nat)
    (cmd_args : List (List Nat)) (ack2 : Int) :
    sendNroFile file_name file_length compress input cmd_args (-2) ack2
        = (.error (.handshake .insufficientSpace),
            [.nameAndLength file_name (file_length % 2 ^ 32)])
      ∧ ∀ p, UploadMsg.dataFrame p
          ∉ (sendNroFile file_name file_length compress input cmd_args
              (-2) ack2).2 := by
  have h : checkAck (-2) = .error .insufficientSpace := rfl
  constructor
  · rw [sendNroFile, h]
  · intro p
    rw [sendNroFile, h]
    simp

/-- Witness for C8 at concrete inputs. -/
theorem sendNroFile_insufficientSpace_witness :
    sendNroFile [] 0 (fun l => l) [] [] (-2) 0
      = (.error (.handshake .insufficientSpace), [.nameAndLength [] 0]) :=
  (sendNroFile_insufficientSpace [] 0 (fun l => l) [] [] 0).1

/-- C9: the stdio redirect server copies every byte read to standard
output verbatim and in order: a connection delivering `chunks` (each a
non-empty read of at most the 1 KiB buffer size) then closing yields
success with exactly the concatenation of the chunks on stdout; the same
chunks followed by a failing read yield that error after the same bytes
were written; and a failing stdout write surfaces its error. -/
theorem handleStream_contract (chunks : List (List Nat)) (e : Nat)
    (c0 : List Nat) (rest : List StreamEvent)
    (hread : ∀ c ∈ chunks, 0 < c.length ∧ c.length ≤ 1024) :
    handleStream (chunks.map (fun c => .data c none) ++ .closed :: rest)
        = (.ok (), chunks.flatten)
      ∧ handleStream (chunks.map (fun c => .data c none) ++ [.readErr e])
          = (.error e, chunks.flatten)
      ∧ handleStream (chunks.map (fun c => .data c none)
            ++ [.data c0 (some e)])
          = (.error e, chunks.flatten) := by
  induction chunks with
  | nil => simp [handleStream]
  | cons c cs ih =>
    obtain ⟨h1, h2, h3⟩ := ih (fun d hd => hread d (List.mem_cons_of_mem _ hd))
    refine ⟨?_, ?_, ?_⟩
    · simp only [List.map_cons, List.cons_append, handleStream]
      simp [h1]
    · simp only [List.map_cons, List.cons_append, handleStream]
      simp [h2]
    · simp only [List.map_cons, List.cons_append, handleStream]
      simp [h3]

/-- Witness for C9, Scenario D: a connection that writes the bytes of
"hello\n" and closes results in exactly those bytes on standard output
and a success return. -/
theorem handleStream_contract_witness :
    handleStream [.data [104, 101, 108, 108, 111, 10] none, .closed]
      = (.ok (), [104, 101, 108, 108, 111, 10]) := by
  have h := (handleStream_contract [[104, 101, 108, 108, 111, 10]] 0 [] []
    (by
      intro c hc
      rw [List.mem_singleton] at hc
      subst hc
      exact ⟨by norm_num, by norm_num⟩)).1
  simpa using h

/-- Witness for C2 at a concrete argument list. -/
theorem buildCmdBuf_spec_witness :
    ∃ k ≤ ([[1, 2], [3]] : List (List Nat)).length,
      buildCmdBuf [[1, 2], [3]]
          = (List.map (fun a => a ++ [0])
              (([[1, 2], [3]] : List (List Nat)).take k)).flatten
        ∧ (buildCmdBuf [[1, 2], [3]]).length ≤ MAX_CMD_BUF_SIZE
        ∧ ∀ h : k < ([[1, 2], [3]] : List (List Nat)).length,
            (buildCmdBuf [[1, 2], [3]]).length
                + (([[1, 2], [3]] : List (List Nat)).get ⟨k, h⟩).length + 1
              > MAX_CMD_BUF_SIZE :=
  buildCmdBuf_spec [[1, 2], [3]]

/-- Witness for C7 at a concrete outcome function. -/
theorem discover_zero_attempts_witness :
    discover (fun _ => AttemptOutcome.timeout) 0 = .ok none
      ∧ discoverTrace (fun _ => AttemptOutcome.timeout) 0 0 = [] :=
  discover_zero_attempts (fun _ => AttemptOutcome.timeout)

/-- Witness for C10 at a concrete length past 2^32: the field wraps. -/
theorem fileLengthField_wraps_witness :
    decodeU32le (fileLengthField (2 ^ 32 + 5)) = (2 ^ 32 + 5) % 2 ^ 32
      ∧ fileLengthField (2 ^ 32 + 5) = fileLengthField ((2 ^ 32 + 5) % 2 ^ 32) :=
  fileLengthField_wraps (2 ^ 32 + 5)

end Netloader
